import Mathlib

/-!
Verification of the myCSVVisor application core against its specification.

The development shallowly embeds the core logic of the repository:
the background CSV loader (csvloader.cpp, CsvLoader::run), the per-column
row filter (mainwindow.cpp, MainWindow::applyTableFilters), the emitter
color registry (MainWindow::getEmitterColor), the filtered-data CSV export
(MainWindow::exportFilteredData), and the scatter-plot bounding box and
point transform (simpleplotwidget.cpp).

Machine doubles are modelled as exact rationals, Qt strings as Lean
strings, and the asynchronous cancellation flag as the index of the first
flag read that observes true (the flag is monotone: cancel only sets it).
-/

namespace CsvVisor

/-! ## String utilities modelling the Qt primitives used by the source -/

/-- Model of QString::split(QChar): splits at every occurrence of the
separator, keeping empty parts, never returning an empty list. -/
def splitCharAux (sep : Char) : List Char → List Char → List String
  | [], acc => [String.mk acc.reverse]
  | c :: rest, acc =>
    if c = sep then String.mk acc.reverse :: splitCharAux sep rest []
    else splitCharAux sep rest (c :: acc)

def splitChar (sep : Char) (s : String) : List String :=
  splitCharAux sep s.toList []

/-- Model of QString::trimmed: strip whitespace from both ends. -/
def trimChars (cs : List Char) : List Char :=
  ((cs.dropWhile Char.isWhitespace).reverse.dropWhile Char.isWhitespace).reverse

def qTrim (s : String) : String :=
  String.mk (trimChars s.toList)

/-- Model of the per-line field extraction in CsvLoader::run: split on
commas, then QString::trimmed each field. -/
def splitTrim (line : String) : List String :=
  (splitChar ',' line).map (fun fld => qTrim fld)

/-- Case-insensitive substring containment over char lists, used to model
QString::contains(text, Qt::CaseInsensitive). -/
def containsSub (needle : List Char) : List Char → Bool
  | [] => needle.isEmpty
  | c :: rest => needle.isPrefixOf (c :: rest) || containsSub needle rest

def containsCI (hay needle : String) : Bool :=
  containsSub (needle.toList.map Char.toLower) (hay.toList.map Char.toLower)

/-- Model of QString::startsWith. -/
def qStartsWith (s pre : String) : Bool :=
  pre.toList.isPrefixOf s.toList

/-- Model of QString::mid(n) (the string with its first n characters removed). -/
def qMid (s : String) (n : ℕ) : String :=
  String.mk (s.toList.drop n)

/-! ## Model of QString::toDouble (C locale)

Restricted to the decimal grammar exercised by the program: optional
sign, decimal digits with an optional fractional part and an optional
decimal exponent; surrounding whitespace is ignored; values are exact
rationals (no hexadecimal floats, infinities or NaN). -/

def digitVal (c : Char) : ℕ := c.toNat - '0'.toNat

def natOfDigits (ds : List Char) : ℕ :=
  ds.foldl (fun n c => n * 10 + digitVal c) 0

def spanDigits (cs : List Char) : List Char × List Char :=
  (cs.takeWhile Char.isDigit, cs.dropWhile Char.isDigit)

/-- The exact rational value of a parsed decimal literal with integer
significand m, fracLen fractional digits folded into m, and a signed
decimal exponent; built with integer arithmetic and a single mkRat so
that concrete values reduce inside the kernel. -/
def decValue (m : ℕ) (fracLen : ℕ) (negExp : Bool) (e : ℕ) : ℚ :=
  if negExp then mkRat (m : ℤ) (10 ^ fracLen * 10 ^ e)
  else mkRat ((m : ℤ) * 10 ^ e) (10 ^ fracLen)

def parseExpDigits (cs : List Char) : Option (Bool × ℕ) :=
  match cs with
  | '+' :: r =>
    (match spanDigits r with
     | (ds, rest) => if ds.isEmpty || !rest.isEmpty then none else some (false, natOfDigits ds))
  | '-' :: r =>
    (match spanDigits r with
     | (ds, rest) => if ds.isEmpty || !rest.isEmpty then none else some (true, natOfDigits ds))
  | r =>
    (match spanDigits r with
     | (ds, rest) => if ds.isEmpty || !rest.isEmpty then none else some (false, natOfDigits ds))

def parseExpTail : List Char → Option (Bool × ℕ)
  | [] => some (false, 0)
  | 'e' :: rest => parseExpDigits rest
  | 'E' :: rest => parseExpDigits rest
  | _ => none

def qToDoubleCore (cs : List Char) : Option ℚ :=
  match spanDigits cs with
  | (ipds, r1) =>
    match r1 with
    | '.' :: r2 =>
      match spanDigits r2 with
      | (fpds, r3) =>
        if ipds.isEmpty && fpds.isEmpty then none
        else
          (parseExpTail r3).map fun ne =>
            decValue (natOfDigits ipds * 10 ^ fpds.length + natOfDigits fpds)
              fpds.length ne.1 ne.2
    | _ =>
      if ipds.isEmpty then none
      else (parseExpTail r1).map fun ne => decValue (natOfDigits ipds) 0 ne.1 ne.2

def qToDouble? (s : String) : Option ℚ :=
  match trimChars s.toList with
  | '-' :: r => (qToDoubleCore r).map (fun v => -v)
  | '+' :: r => qToDoubleCore r
  | r => qToDoubleCore r

/-! ## Data model (csvdata.h) -/

structure CsvData where
  headers : List String
  rows : List (List String)
deriving DecidableEq, Repr

/-! ## CsvLoader (csvloader.cpp)

CsvLoader::run is a straight-line routine emitting Qt signals; it is
embedded as a function from its inputs to the emitted signal list.
The volatile isCancelled flag is set asynchronously by cancel() and only
ever goes from false to true; it is modelled by the index of the first
read of the flag that observes true (none when never cancelled), reads
being numbered in program order. -/

inductive Signal where
  | progressUpdated (value : ℤ) (message : String)
  | errorOccurred (message : String)
  | loadingFinished (data : CsvData)
deriving DecidableEq, Repr

def isTerminalSignal : Signal → Bool
  | .progressUpdated _ _ => false
  | .errorOccurred _ => true
  | .loadingFinished _ => true

/-- The k-th read of the volatile isCancelled flag: true from the given
read index onward, false forever when cancel was never requested. -/
def flagAt (cancel : Option ℕ) (k : ℕ) : Bool :=
  match cancel with
  | none => false
  | some c => c ≤ k

def MAX_ROWS_TO_LOAD : ℕ := 50000

structure LoopOut where
  rows : List (List String)
  sigs : List Signal
  rowsLoaded : ℕ
  nextRead : ℕ
deriving Repr

/-- The row-reading loop of CsvLoader::run (lines 58-80): while not at
end and under the row cap, poll the flag (break on true), read and split
a line, and emit a progress signal every 1000 rows. -/
def loadLoop (cancel : Option ℕ) (fileSize : ℤ) :
    List String → ℕ → ℕ → ℤ → LoopOut
  | [], rowsLoaded, k, _ => ⟨[], [], rowsLoaded, k⟩
  | line :: rest, rowsLoaded, k, bytesRead =>
    if rowsLoaded < MAX_ROWS_TO_LOAD then
      if flagAt cancel k then ⟨[], [], rowsLoaded, k + 1⟩
      else
        let bytes : ℤ := bytesRead + line.utf8ByteSize + 1
        let row := splitTrim line
        let n := rowsLoaded + 1
        let prog : List Signal :=
          if n % 1000 = 0 then
            let pctRaw : ℤ := if fileSize > 0 then bytes * 100 / fileSize else 0
            let pct : ℤ := if fileSize > 0 then (if pctRaw > 100 then 100 else pctRaw) else 0
            [.progressUpdated pct (toString n ++ " rows loaded...")]
          else []
        let out := loadLoop cancel fileSize rest n (k + 1) bytes
        ⟨row :: out.rows, prog ++ out.sigs, out.rowsLoaded, out.nextRead⟩
    else ⟨[], [], rowsLoaded, k⟩

/-- CsvLoader::run. Inputs: the file path (used only in messages), an
error string for open failures, whether the file exists and can be
opened, its reported size, its lines, and the cancellation read index.
Output: the list of emitted signals in order. -/
def runLoader (filePath errStr : String) (fileExists canOpen : Bool)
    (fileSize : ℤ) (lines : List String) (cancel : Option ℕ) : List Signal :=
  if !fileExists then
    [.errorOccurred ("File not found: " ++ filePath)]
  else if !canOpen then
    [.errorOccurred ("Failed to open file: " ++ filePath ++ ". Error: " ++ errStr)]
  else
    match lines with
    | [] => [.errorOccurred "File is empty or header could not be read."]
    | headerLine :: rest =>
      let headers := splitTrim headerLine
      let bytes0 : ℤ := headerLine.utf8ByteSize + 1
      let headerSig : Signal := .progressUpdated 0 "Header loaded."
      if flagAt cancel 0 then
        [headerSig, .errorOccurred "Loading cancelled by user."]
      else
        let out := loadLoop cancel fileSize rest 0 1 bytes0
        let data : CsvData := ⟨headers, out.rows⟩
        let finalSigs : List Signal :=
          if flagAt cancel out.nextRead then
            [.errorOccurred "Loading cancelled by user during row processing."]
          else if out.rowsLoaded == 0 && data.headers.isEmpty then
            [.errorOccurred "No data loaded from CSV."]
          else if out.rowsLoaded == 0 then
            [.loadingFinished data]
          else
            [.progressUpdated 100 ("Finished loading " ++ toString out.rowsLoaded ++ " rows."),
             .loadingFinished data]
        headerSig :: (out.sigs ++ finalSigs)

/-! ## Row filtering (MainWindow::applyTableFilters, mainwindow.cpp 606-688)

The filter strings are the trimmed texts of the per-column filter edits
(one per column, empty meaning no filter on that column). -/

/-- Per-cell filter evaluation, the body of the filter loop
(mainwindow.cpp 632-668): a relational prefix followed by a number when
both sides parse, else an inclusive numeric range when the filter splits
on a colon into two numbers and the cell parses, else case-insensitive
substring containment. -/
def matchesFilter (cellValue filterText : String) : Bool :=
  if qStartsWith filterText ">" || qStartsWith filterText "<" || qStartsWith filterText "=" then
    let numPart :=
      if qStartsWith filterText "==" || qStartsWith filterText ">=" || qStartsWith filterText "<="
      then qMid filterText 2 else qMid filterText 1
    match qToDouble? cellValue, qToDouble? numPart with
    | some cellNum, some filterNum =>
      if qStartsWith filterText ">=" then cellNum ≥ filterNum
      else if qStartsWith filterText "<=" then cellNum ≤ filterNum
      else if qStartsWith filterText ">" then cellNum > filterNum
      else if qStartsWith filterText "<" then cellNum < filterNum
      else if qStartsWith filterText "==" then cellNum == filterNum
      else cellNum == filterNum
    | _, _ => containsCI cellValue filterText
  else if filterText.toList.contains ':' then
    match splitChar ':' filterText with
    | [mn, mx] =>
      match qToDouble? cellValue, qToDouble? mn, qToDouble? mx with
      | some cellNum, some minVal, some maxVal =>
        cellNum ≥ minVal && cellNum ≤ maxVal
      | _, _, _ => containsCI cellValue filterText
    | _ => containsCI cellValue filterText
  else containsCI cellValue filterText

/-- The inner filter loop (mainwindow.cpp 630-675) for a row at least as
long as the filter list: every column with a non-empty filter must match. -/
def rowMatchesAllFilters (row filters : List String) : Bool :=
  (List.range filters.length).all fun j =>
    (filters.getD j "").isEmpty || matchesFilter (row.getD j "") (filters.getD j "")

/-- MainWindow::applyTableFilters: with no active filter the displayed
table is the loaded table unchanged; otherwise rows shorter than the
filter list are dropped and the remaining rows are kept when all
non-empty filters match. Headers are carried over. -/
def applyTableFilters (data : CsvData) (filters : List String) : CsvData :=
  if filters.all String.isEmpty then data
  else
    ⟨data.headers,
     data.rows.filter fun row =>
       if row.length < filters.length then false
       else rowMatchesAllFilters row filters⟩

/-- Modelled from the claim wording for filtering: a row satisfies every
non-empty per-column filter when, for each filter column, the filter is
empty or the row has a cell there that matches it. Unlike the code path
this places no requirement on the cells of columns with empty filters. -/
def rowSatisfiesEveryFilter (row filters : List String) : Bool :=
  (List.range filters.length).all fun j =>
    (filters.getD j "").isEmpty ||
      (decide (j < row.length) && matchesFilter (row.getD j "") (filters.getD j ""))

/-! ## Emitter color registry (MainWindow::getEmitterColor, mainwindow.cpp 305-318) -/

/-- The colors the source mentions, as abstract tokens: the fifteen
palette entries built by populateDefaultColors plus the fixed sentinel
colors used by getEmitterColor. -/
inductive QtColor where
  | greenDark120 | blue | cyanDark150 | magenta | yellowDark150
  | darkBlue | darkGreen | darkCyan | darkMagenta | darkYellow
  | gray | hexFF5733 | hex33FFBD | hexA233FF | hexFFC300
  | red | darkGray | black
deriving DecidableEq, Repr

/-- The palette built by MainWindow::populateDefaultColors (mainwindow.cpp 239-256). -/
def vibrantColors : List QtColor :=
  [.greenDark120, .blue, .cyanDark150, .magenta, .yellowDark150,
   .darkBlue, .darkGreen, .darkCyan, .darkMagenta, .darkYellow,
   .gray, .hexFF5733, .hex33FFBD, .hexA233FF, .hexFFC300]

/-- The mutable state consulted by getEmitterColor: the id-to-color map
and the monotone palette index. -/
structure EmitterColorState where
  emitterColorMap : List (ℤ × QtColor)
  nextColorIndex : ℕ
deriving DecidableEq, Repr

/-- MainWindow::getEmitterColor: id -2 is the fixed invalid-value color,
other negative ids the fixed unavailable color, known ids return the
memoized color, and a fresh nonnegative id takes the next palette slot
(the empty-palette guard of the source is dead here because the palette
is the fixed nonempty list above). -/
def getEmitterColor (s : EmitterColorState) (emitterId : ℤ) : QtColor × EmitterColorState :=
  if emitterId = -2 then (.red, s)
  else if emitterId < 0 then (.darkGray, s)
  else
    match s.emitterColorMap.lookup emitterId with
    | some c => (c, s)
    | none =>
      if vibrantColors.isEmpty then (.black, s)
      else
        let newColor := vibrantColors.getD (s.nextColorIndex % vibrantColors.length) .black
        (newColor, ⟨(emitterId, newColor) :: s.emitterColorMap, s.nextColorIndex + 1⟩)

/-! ## Export (MainWindow::exportFilteredData, mainwindow.cpp 833-874)

Embedded as the text written to the destination file: the header line is
the plain comma join of the headers; each data row joins its fields after
the quoting step applied field by field in the export loop. -/

/-- Model of QString::replace("\"", "\"\"") on a char list: every double
quote is doubled. -/
def doubleQuotes : List Char → List Char
  | [] => []
  | c :: rest =>
    if c = '"' then '"' :: '"' :: doubleQuotes rest
    else c :: doubleQuotes rest

def exportContent (data : CsvData) : String :=
  String.intercalate "," data.headers ++ "\n" ++
  String.join (data.rows.map fun row =>
    String.intercalate ","
      (row.map fun field =>
        if field.toList.contains ',' || field.toList.contains '"'
            || field.toList.contains '\n' then
          String.mk ('"' :: doubleQuotes field.toList ++ ['"'])
        else field)
    ++ "\n")

/-- Modelled from the spec: the write-side quoting rule as the spec
states it (a field containing a comma, a double quote or a newline is
wrapped in double quotes with internal double quotes doubled; every
other field is written verbatim), for comparison with exportContent. -/
def specQuoteField (field : String) : String :=
  if field.toList.contains ',' || field.toList.contains '"'
      || field.toList.contains '\n' then
    String.mk ('"' :: doubleQuotes field.toList ++ ['"'])
  else field

/-! ## Scatter plot geometry (simpleplotwidget.cpp)

QRectF carries exact rational coordinates; the widget plot area is an
integer QRect whose bottom() is top() + height() - 1 per the Qt
convention. -/

/-- The data bounding box (a QRectF: x, y are the left and top edges). -/
structure DataRect where
  x : ℚ
  y : ℚ
  w : ℚ
  h : ℚ
deriving DecidableEq, Repr

/-- The integer plot rectangle (a QRect). -/
structure PlotRect where
  x : ℤ
  y : ℤ
  w : ℤ
  h : ℤ
deriving DecidableEq, Repr

/-- SimplePlotWidget::calculateDataBoundingRect (simpleplotwidget.cpp
35-69): min and max of each coordinate over the points, each degenerate
axis expanded by one half on both sides, with a final dead guard turning
a zero extent into one. -/
def calculateDataBoundingRect (points : List (ℚ × ℚ)) : DataRect :=
  match points with
  | [] => ⟨0, 0, 1, 1⟩
  | p0 :: _ =>
    let minX := points.foldl (fun m p => if p.1 < m then p.1 else m) p0.1
    let maxX := points.foldl (fun m p => if p.1 > m then p.1 else m) p0.1
    let minY := points.foldl (fun m p => if p.2 < m then p.2 else m) p0.2
    let maxY := points.foldl (fun m p => if p.2 > m then p.2 else m) p0.2
    let minX2 := if minX = maxX then minX - 1/2 else minX
    let maxX2 := if minX = maxX then maxX + 1/2 else maxX
    let minY2 := if minY = maxY then minY - 1/2 else minY
    let maxY2 := if minY = maxY then maxY + 1/2 else maxY
    let width := if maxX2 - minX2 = 0 then 1 else maxX2 - minX2
    let height := if maxY2 - minY2 = 0 then 1 else maxY2 - minY2
    ⟨minX2, minY2, width, height⟩

/-- The per-point coordinate transform of SimplePlotWidget::paintEvent
(simpleplotwidget.cpp 123-136): linear scaling into the plot rectangle
with the y axis flipped from its bottom() edge, which for an integer
QRect is y + h - 1. -/
def transformPoint (plotRect : PlotRect) (dataRect : DataRect) (p : ℚ × ℚ) : ℚ × ℚ :=
  let sx : ℚ := (plotRect.w : ℚ) / dataRect.w
  let sy : ℚ := (plotRect.h : ℚ) / dataRect.h
  ((plotRect.x : ℚ) + (p.1 - dataRect.x) * sx,
   ((plotRect.y + plotRect.h - 1 : ℤ) : ℚ) - (p.2 - dataRect.y) * sy)

/-! ## Helper lemmas on the string utilities -/

theorem splitCharAux_length (sep : Char) :
    ∀ (cs acc : List Char), (splitCharAux sep cs acc).length = cs.count sep + 1 := by
  intro cs
  induction cs with
  | nil => intro acc; simp [splitCharAux]
  | cons c rest ih =>
    intro acc
    by_cases h : c = sep
    · simp [splitCharAux, h, ih, List.count_cons]
    · simp [splitCharAux, h, ih, List.count_cons]

theorem splitChar_ne_nil (sep : Char) (s : String) : splitChar sep s ≠ [] := by
  intro hc
  have h := splitCharAux_length sep s.toList []
  rw [splitChar] at hc
  rw [hc] at h
  simp at h

theorem splitTrim_ne_nil (line : String) : splitTrim line ≠ [] := by
  intro h
  apply splitChar_ne_nil ',' line
  have hlen := congrArg List.length h
  simp only [splitTrim, List.length_map, List.length_nil] at hlen
  exact List.eq_nil_of_length_eq_zero hlen

theorem splitTrim_isEmpty_false (line : String) : (splitTrim line).isEmpty = false := by
  cases h : splitTrim line with
  | nil => exact absurd h (splitTrim_ne_nil line)
  | cons a l => rfl

theorem contains_of_count_pos {sep : Char} :
    ∀ {cs : List Char}, 0 < cs.count sep → cs.contains sep = true := by
  intro cs
  induction cs with
  | nil => intro h; simp [List.count_nil] at h
  | cons c rest ih =>
    intro h
    rw [List.contains_cons]
    by_cases hc : sep = c
    · simp [hc]
    · rw [List.count_cons] at h
      have hcc : (c == sep) = false := by
        simp only [beq_eq_false_iff_ne, ne_eq]
        intro hx; exact hc hx.symm
      rw [hcc] at h
      simp only [Bool.false_eq_true, if_false, Nat.add_zero] at h
      have hr := ih h
      simp only [List.contains_cons, hr, Bool.or_true]

theorem contains_of_splitChar_pair (sep : Char) (s : String) (a b : String)
    (h : splitChar sep s = [a, b]) : s.toList.contains sep = true := by
  have hl := splitCharAux_length sep s.toList []
  rw [splitChar] at h
  rw [h] at hl
  simp only [List.length_cons, List.length_nil] at hl
  exact contains_of_count_pos (by omega)

/-! ## Helper lemmas on the loader loop -/

theorem loadLoop_none_rows (fs : ℤ) :
    ∀ (lines : List String) (r k : ℕ) (b : ℤ),
      (loadLoop none fs lines r k b).rows
        = (lines.take (MAX_ROWS_TO_LOAD - r)).map splitTrim := by
  intro lines
  induction lines with
  | nil => intro r k b; simp [loadLoop]
  | cons line rest ih =>
    intro r k b
    by_cases h : r < MAX_ROWS_TO_LOAD
    · have h2 : MAX_ROWS_TO_LOAD - r = (MAX_ROWS_TO_LOAD - (r + 1)) + 1 := by omega
      rw [h2]
      simp [loadLoop, h, flagAt, ih]
    · have h2 : MAX_ROWS_TO_LOAD - r = 0 := by omega
      simp [loadLoop, h, h2]

theorem loadLoop_none_rowsLoaded (fs : ℤ) :
    ∀ (lines : List String) (r k : ℕ) (b : ℤ),
      (loadLoop none fs lines r k b).rowsLoaded
        = r + min lines.length (MAX_ROWS_TO_LOAD - r) := by
  intro lines
  induction lines with
  | nil => intro r k b; simp [loadLoop]
  | cons line rest ih =>
    intro r k b
    by_cases h : r < MAX_ROWS_TO_LOAD
    · simp [loadLoop, h, flagAt, ih]
      omega
    · simp [loadLoop, h]
      omega

theorem loadLoop_sigs_not_terminal (cancel : Option ℕ) (fs : ℤ) :
    ∀ (lines : List String) (r k : ℕ) (b : ℤ) (s : Signal),
      s ∈ (loadLoop cancel fs lines r k b).sigs → isTerminalSignal s = false := by
  intro lines
  induction lines with
  | nil => intro r k b s hs; simp [loadLoop] at hs
  | cons line rest ih =>
    intro r k b s hs
    by_cases h : r < MAX_ROWS_TO_LOAD
    · cases hflag : flagAt cancel k with
      | true => simp [loadLoop, h, hflag] at hs
      | false =>
        by_cases hm : (r + 1) % 1000 = 0
        · simp [loadLoop, h, hflag, hm] at hs
          rcases hs with rfl | h2
          · rfl
          · exact ih _ _ _ _ h2
        · simp [loadLoop, h, hflag, hm] at hs
          exact ih _ _ _ _ hs
    · simp [loadLoop, h] at hs

theorem loadLoop_sigs_filter (cancel : Option ℕ) (fs : ℤ)
    (lines : List String) (r k : ℕ) (b : ℤ) :
    (loadLoop cancel fs lines r k b).sigs.filter isTerminalSignal = [] := by
  rw [List.filter_eq_nil_iff]
  intro a ha
  simp [loadLoop_sigs_not_terminal cancel fs lines r k b a ha]

/-! ## Claim theorems about the loader -/

/-- C1: for a readable CSV file with a header line and N data lines, an
uncancelled load emits exactly one terminal signal, a success carrying
the split header list and the first min(N, 50000) data lines as rows
(lines beyond the cap dropped). -/
theorem loader_uncancelled_loads_min_rows
    (filePath errStr : String) (fileSize : ℤ) (header : String) (dataLines : List String) :
    (runLoader filePath errStr true true fileSize (header :: dataLines) none).filter
        isTerminalSignal
      = [Signal.loadingFinished
          ⟨splitTrim header, (dataLines.take MAX_ROWS_TO_LOAD).map splitTrim⟩]
    ∧ ((dataLines.take MAX_ROWS_TO_LOAD).map splitTrim).length
        = min dataLines.length MAX_ROWS_TO_LOAD := by
  constructor
  · simp [runLoader, flagAt, splitTrim_isEmpty_false, loadLoop_none_rows,
      loadLoop_sigs_filter, List.filter_append, List.filter_cons, isTerminalSignal]
    split <;> simp [isTerminalSignal]
  · simp [List.length_take]
    omega

/-- C9: loading a readable file holding exactly the header line succeeds
with a nonempty header list and no rows, and reports no error. -/
theorem loader_headerOnly_success (filePath errStr : String) (fileSize : ℤ) (header : String) :
    runLoader filePath errStr true true fileSize [header] none
      = [Signal.progressUpdated 0 "Header loaded.",
         Signal.loadingFinished ⟨splitTrim header, []⟩]
    ∧ 0 < (splitTrim header).length := by
  constructor
  · simp [runLoader, flagAt, loadLoop, splitTrim_isEmpty_false]
  · rw [List.length_pos]
    exact splitTrim_ne_nil header

/-- C10: every execution of CsvLoader::run emits exactly one terminal
signal (one error or one success), on every input path. -/
theorem loader_exactly_one_terminal (filePath errStr : String) (fileExists canOpen : Bool)
    (fileSize : ℤ) (lines : List String) (cancel : Option ℕ) :
    ((runLoader filePath errStr fileExists canOpen fileSize lines cancel).filter
      isTerminalSignal).length = 1 := by
  cases fileExists with
  | false => simp [runLoader, isTerminalSignal]
  | true =>
    cases canOpen with
    | false => simp [runLoader, isTerminalSignal]
    | true =>
      cases lines with
      | nil => simp [runLoader, isTerminalSignal]
      | cons header rest =>
        cases hflag : flagAt cancel 0 with
        | true => simp [runLoader, hflag, isTerminalSignal]
        | false =>
          simp [runLoader, hflag, loadLoop_sigs_filter, splitTrim_isEmpty_false,
            List.filter_append, List.filter_cons, isTerminalSignal]
          split
          · simp [isTerminalSignal]
          · split <;> simp [isTerminalSignal]

/-- C5: once the cancellation flag is observed at any reached poll point,
the flag being monotone it is also observed at the final poll; the run
then reports a cancelled outcome as its single terminal signal, namely
the error signal carrying exactly the cancellation message of the poll
that stopped it (the pre-loop message when the flag was already set at
the first poll, the in-loop message otherwise, and no other outcome),
and never emits the success signal, so no partial table is delivered.
The hypothesis states the final-poll observation, which by monotonicity
of flagAt subsumes the flag being set at any earlier reached poll. -/
theorem loader_cancelled_blocks_success (filePath errStr : String) (fileSize : ℤ)
    (header : String) (rest : List String) (cancel : Option ℕ)
    (h : flagAt cancel
        (loadLoop cancel fileSize rest 0 1 ((header.utf8ByteSize : ℤ) + 1)).nextRead = true) :
    ((runLoader filePath errStr true true fileSize (header :: rest) cancel).filter
        isTerminalSignal
      = [Signal.errorOccurred
          (if flagAt cancel 0 then "Loading cancelled by user."
           else "Loading cancelled by user during row processing.")])
    ∧ ∀ data, Signal.loadingFinished data
        ∉ runLoader filePath errStr true true fileSize (header :: rest) cancel := by
  cases hflag0 : flagAt cancel 0 with
  | true =>
    constructor
    · simp [runLoader, hflag0, isTerminalSignal]
    · intro data
      simp [runLoader, hflag0]
  | false =>
    constructor
    · simp [runLoader, hflag0, h, loadLoop_sigs_filter, List.filter_append,
        List.filter_cons, isTerminalSignal]
    · intro data
      simp [runLoader, hflag0, h]
      intro hmem
      have hterm := loadLoop_sigs_not_terminal cancel fileSize rest 0 1 _ _ hmem
      simp [isTerminalSignal] at hterm

/-! ## Helper lemmas on filtering -/

theorem all_congr_on {α : Type} (l : List α) (p q : α → Bool)
    (h : ∀ x ∈ l, p x = q x) : l.all p = l.all q := by
  induction l with
  | nil => rfl
  | cons y ys ih =>
    have hy : p y = q y := h y (List.mem_cons_self y ys)
    have hys : ∀ x ∈ ys, p x = q x := fun x hx => h x (List.mem_cons_of_mem y hx)
    rw [List.all_cons, List.all_cons, hy, ih hys]

theorem rowSatisfies_eq_rowMatches (row filters : List String)
    (h : filters.length ≤ row.length) :
    rowSatisfiesEveryFilter row filters = rowMatchesAllFilters row filters := by
  unfold rowSatisfiesEveryFilter rowMatchesAllFilters
  apply all_congr_on
  intro j hj
  rw [List.mem_range] at hj
  have hjr : j < row.length := lt_of_lt_of_le hj h
  simp [hjr]

/-! ## Claim theorems about filtering -/

/-- C8: with every filter string empty, filtering returns the table
unchanged, same rows in the same order. -/
theorem filters_allEmpty_identity (data : CsvData) (filters : List String)
    (h : ∀ f ∈ filters, f = "") :
    applyTableFilters data filters = data := by
  have hall : filters.all String.isEmpty = true := by
    rw [List.all_eq_true]
    intro f hf
    rw [h f hf]
    rfl
  simp [applyTableFilters, hall]

/-- Witness for C8 on a concrete table and two empty filters. -/
theorem filters_allEmpty_identity_witness :
    (∀ f ∈ (["", ""] : List String), f = "")
    ∧ applyTableFilters ⟨["a", "b"], [["1", "2"], ["3"]]⟩ ["", ""]
        = ⟨["a", "b"], [["1", "2"], ["3"]]⟩ :=
  ⟨by decide, filters_allEmpty_identity ⟨["a", "b"], [["1", "2"], ["3"]]⟩ ["", ""] (by decide)⟩

/-- C2 counterexample: the row ["abc"] satisfies every non-empty filter
of ["a", ""] (the only non-empty filter, "a" on column 0, matches), yet
the code excludes it because the row is shorter than the filter list, so
keeping a row is not equivalent to satisfying every non-empty filter. -/
theorem filters_shortRow_cex :
    rowSatisfiesEveryFilter ["abc"] ["a", ""] = true
    ∧ (applyTableFilters ⟨["h1", "h2"], [["abc"]]⟩ ["a", ""]).rows = []
    ∧ ¬ ((["abc"] ∈ (applyTableFilters ⟨["h1", "h2"], [["abc"]]⟩ ["a", ""]).rows)
          ↔ rowSatisfiesEveryFilter ["abc"] ["a", ""] = true) := by
  refine ⟨by decide, by decide, by decide⟩

/-- C2 (amended): when at least one filter string is non-empty, a row is
kept if and only if it has at least as many cells as there are filter
columns and satisfies every non-empty per-column filter (logical AND);
rows shorter than the filter list are excluded outright. In particular
the table [["1","a"],["6","a"],["6","b"]] with filters [">5","a"] yields
exactly [["6","a"]]. -/
theorem filters_and_semantics :
    (∀ (data : CsvData) (filters : List String),
      filters.all String.isEmpty = false →
      (applyTableFilters data filters).rows
        = data.rows.filter fun r =>
            decide (filters.length ≤ r.length) && rowSatisfiesEveryFilter r filters)
    ∧ applyTableFilters ⟨["c0", "c1"], [["1", "a"], ["6", "a"], ["6", "b"]]⟩ [">5", "a"]
        = ⟨["c0", "c1"], [["6", "a"]]⟩ := by
  constructor
  · intro data filters hact
    simp only [applyTableFilters, hact, Bool.false_eq_true, if_false]
    apply List.filter_congr
    intro r _
    by_cases hlen : r.length < filters.length
    · have h2 : ¬ (filters.length ≤ r.length) := by omega
      simp [hlen, h2]
    · have hle : filters.length ≤ r.length := by omega
      simp [hlen, hle, rowSatisfies_eq_rowMatches r filters hle]
  · decide

/-- Witness for C2 with one active filter on a two-row table. -/
theorem filters_and_semantics_witness :
    ([">5"] : List String).all String.isEmpty = false
    ∧ (applyTableFilters ⟨["c"], [["6"], ["1"]]⟩ [">5"]).rows = [["6"]] :=
  ⟨by decide,
   (filters_and_semantics.1 ⟨["c"], [["6"], ["1"]]⟩ [">5"] (by decide)).trans (by decide)⟩

/-- C3 counterexample: with the range filter "10:20", the non-numeric
cell "a10:20" is kept through the case-insensitive substring fallback,
while the claim requires every row with a non-parsing cell in that
column to be excluded (which would leave no rows here). -/
theorem rangeFilter_nonNumeric_cex :
    qToDouble? "a10:20" = none
    ∧ (applyTableFilters ⟨["c"], [["a10:20"]]⟩ ["10:20"]).rows = [["a10:20"]]
    ∧ (applyTableFilters ⟨["c"], [["a10:20"]]⟩ ["10:20"]).rows ≠ [] := by
  refine ⟨by decide, by decide, by decide⟩

/-- C3 (amended): a range filter min:max with both endpoints numeric
keeps a numeric cell exactly when min ≤ v ≤ max (both ends inclusive, so
an inverted range keeps no numeric cell), while a row whose cell does
not parse as a number falls back to case-insensitive substring
containment of the filter text instead of being excluded; rows with no
cell in the filter column are excluded. -/
theorem rangeFilter_semantics (hdrs : List String) (rows : List (List String))
    (f a b : String) (qa qb : ℚ)
    (hgt : qStartsWith f ">" = false) (hlt : qStartsWith f "<" = false)
    (heq : qStartsWith f "=" = false)
    (hsplit : splitChar ':' f = [a, b])
    (ha : qToDouble? a = some qa) (hb : qToDouble? b = some qb) :
    (applyTableFilters ⟨hdrs, rows⟩ [f]).rows
      = rows.filter fun r =>
          match r with
          | [] => false
          | c :: _ =>
            match qToDouble? c with
            | some v => v ≥ qa && v ≤ qb
            | none => containsCI c f := by
  have hcont := contains_of_splitChar_pair ':' f a b hsplit
  have hne : f ≠ "" := by
    intro h0
    rw [h0] at hcont
    simp [List.contains] at hcont
  have hfe : f.isEmpty = false := by
    cases hq : f.isEmpty
    · rfl
    · exact absurd ((String.isEmpty_iff f).mp hq) hne
  simp only [applyTableFilters, List.all_cons, List.all_nil, hfe, Bool.and_true,
    Bool.false_eq_true, if_false]
  apply List.filter_congr
  intro r _
  cases r with
  | nil => simp
  | cons c t =>
    have hlen : ¬ ((c :: t).length < ([f] : List String).length) := by simp
    rw [if_neg hlen]
    unfold rowMatchesAllFilters
    simp only [List.length_cons, List.length_nil, List.range_succ, List.range_zero,
      List.nil_append, List.all_cons, List.all_nil, List.getD_cons_zero, Bool.and_true]
    simp only [hfe, Bool.false_or]
    unfold matchesFilter
    simp only [hgt, hlt, heq, Bool.or_self, Bool.false_eq_true, if_false, hcont, if_true,
      hsplit]
    cases hq : qToDouble? c with
    | none => simp [ha, hb]
    | some v => simp [ha, hb]

/-- Witness for C3 with the range filter 10:20 on a mixed column. -/
theorem rangeFilter_semantics_witness :
    qToDouble? "10" = some 10
    ∧ (applyTableFilters ⟨["c"], [["15"], ["x"], ["25"], ["a10:20"]]⟩ ["10:20"]).rows
        = [["15"], ["a10:20"]] :=
  ⟨by decide,
   (rangeFilter_semantics ["c"] [["15"], ["x"], ["25"], ["a10:20"]] "10:20" "10" "20" 10 20
      (by decide) (by decide) (by decide) (by decide) (by decide) (by decide)).trans
     (by decide)⟩

/-! ## Claim theorems about the color registry -/

/-- C4: a fresh nonnegative id takes palette slot nextColorIndex mod
paletteSize and advances the index by one; a known nonnegative id
returns its memoized color with the state untouched; id -2 and the other
negative ids map to fixed sentinel colors without consuming palette
slots; and the lookup sequence [3, 7, 3] takes slots 0 and 1 and returns
the slot-0 color again with only two slots consumed. -/
theorem emitterColor_assignment :
    (∀ (s : EmitterColorState) (id : ℤ), 0 ≤ id →
      s.emitterColorMap.lookup id = none →
      getEmitterColor s id
        = (vibrantColors.getD (s.nextColorIndex % vibrantColors.length) .black,
           ⟨(id, vibrantColors.getD (s.nextColorIndex % vibrantColors.length) .black)
              :: s.emitterColorMap,
            s.nextColorIndex + 1⟩))
    ∧ (∀ (s : EmitterColorState) (id : ℤ) (c : QtColor), 0 ≤ id →
        s.emitterColorMap.lookup id = some c → getEmitterColor s id = (c, s))
    ∧ (∀ s : EmitterColorState, getEmitterColor s (-2) = (.red, s))
    ∧ (∀ (s : EmitterColorState) (id : ℤ), id < 0 → id ≠ -2 →
        getEmitterColor s id = (.darkGray, s))
    ∧ ((getEmitterColor ⟨[], 0⟩ 3).1 = vibrantColors.getD 0 .black
        ∧ (getEmitterColor (getEmitterColor ⟨[], 0⟩ 3).2 7).1 = vibrantColors.getD 1 .black
        ∧ (getEmitterColor (getEmitterColor (getEmitterColor ⟨[], 0⟩ 3).2 7).2 3).1
            = (getEmitterColor ⟨[], 0⟩ 3).1
        ∧ (getEmitterColor (getEmitterColor (getEmitterColor ⟨[], 0⟩ 3).2 7).2 3).2.nextColorIndex
            = 2) := by
  refine ⟨?_, ?_, ?_, ?_, ?_⟩
  · intro s id hpos hlook
    have h2 : id ≠ -2 := by omega
    have h3 : ¬ id < 0 := by omega
    simp [getEmitterColor, h2, h3, hlook]
    intro habs
    exact absurd habs (by decide)
  · intro s id c hpos hlook
    have h2 : id ≠ -2 := by omega
    have h3 : ¬ id < 0 := by omega
    simp [getEmitterColor, h2, h3, hlook]
  · intro s
    simp [getEmitterColor]
  · intro s id h1 h2
    simp [getEmitterColor, h1, h2]
  · refine ⟨by decide, by decide, by decide, by decide⟩

/-- Witness for C4 on a fresh registry and the id 3. -/
theorem emitterColor_assignment_witness :
    (0 : ℤ) ≤ 3
    ∧ (EmitterColorState.mk [] 0).emitterColorMap.lookup (3 : ℤ) = none
    ∧ getEmitterColor ⟨[], 0⟩ 3
        = (QtColor.greenDark120, ⟨[((3 : ℤ), QtColor.greenDark120)], 1⟩) :=
  ⟨by decide, rfl, by
    have h := emitterColor_assignment.1 ⟨[], 0⟩ 3 (by decide) rfl
    exact h.trans (by decide)⟩

/-! ## Claim theorems about the export -/

/-- C6 counterexample: the header field "a,b" contains a comma but the
export writes it verbatim and unquoted, so the quoting rule does not
apply to the header row as the claim asserts. -/
theorem export_header_unquoted_cex :
    exportContent ⟨["a,b"], [["x"]]⟩ = "a,b\nx\n"
    ∧ exportContent ⟨["a,b"], [["x"]]⟩ ≠ "\"a,b\"\nx\n" := by
  exact ⟨by decide, by decide⟩

/-- C6 (amended): on export every data-row field containing a comma, a
double quote or a newline is wrapped in double quotes with internal
double quotes doubled and every other data-row field is written
verbatim, but the header row is the verbatim comma join of the headers
with no quoting applied to it. -/
theorem export_quoting_rows_only :
    (∀ field : String,
      ((field.toList.contains ',' || field.toList.contains '"'
          || field.toList.contains '\n') = true →
        specQuoteField field = String.mk ('"' :: doubleQuotes field.toList ++ ['"']))
      ∧ ((field.toList.contains ',' || field.toList.contains '"'
          || field.toList.contains '\n') = false →
        specQuoteField field = field))
    ∧ ∀ (hs : List String) (rows : List (List String)),
        exportContent ⟨hs, rows⟩
          = String.intercalate "," hs ++ "\n"
            ++ String.join (rows.map fun row =>
                 String.intercalate "," (row.map specQuoteField) ++ "\n") := by
  refine ⟨fun field => ⟨fun h => ?_, fun h => ?_⟩, fun hs rows => rfl⟩
  · unfold specQuoteField
    rw [if_pos h]
  · unfold specQuoteField
    have h1 : ¬ ((field.toList.contains ',' || field.toList.contains '"'
        || field.toList.contains '\n') = true) := by
      rw [h]
      exact Bool.false_ne_true
    rw [if_neg h1]

/-- Witness for C6: a comma field is quoted as a data field, a plain
field is verbatim, and a concrete export shows the shape of the output. -/
theorem export_quoting_rows_only_witness :
    (("a,b" : String).toList.contains ',' || ("a,b" : String).toList.contains '"'
        || ("a,b" : String).toList.contains '\n') = true
    ∧ specQuoteField "a,b" = "\"a,b\""
    ∧ exportContent ⟨["h"], [["x"]]⟩ = "h\nx\n" :=
  ⟨by decide,
   ((export_quoting_rows_only.1 "a,b").1 (by decide)).trans (by decide),
   (export_quoting_rows_only.2 ["h"] [["x"]]).trans (by decide)⟩

/-! ## Helper lemmas on the plot folds -/

theorem foldl_minfst_const (c : ℚ) :
    ∀ l : List (ℚ × ℚ), (∀ p ∈ l, p.1 = c) →
      l.foldl (fun m p => if p.1 < m then p.1 else m) c = c := by
  intro l
  induction l with
  | nil => intro h; rfl
  | cons p t ih =>
    intro h
    have hp : p.1 = c := h p (by simp)
    simp only [List.foldl_cons, hp, lt_irrefl, if_false]
    exact ih (fun x hx => h x (by simp [hx]))

theorem foldl_maxfst_const (c : ℚ) :
    ∀ l : List (ℚ × ℚ), (∀ p ∈ l, p.1 = c) →
      l.foldl (fun m p => if p.1 > m then p.1 else m) c = c := by
  intro l
  induction l with
  | nil => intro h; rfl
  | cons p t ih =>
    intro h
    have hp : p.1 = c := h p (by simp)
    simp only [List.foldl_cons, hp, gt_iff_lt, lt_irrefl, if_false]
    exact ih (fun x hx => h x (by simp [hx]))

theorem foldl_minsnd_const (c : ℚ) :
    ∀ l : List (ℚ × ℚ), (∀ p ∈ l, p.2 = c) →
      l.foldl (fun m p => if p.2 < m then p.2 else m) c = c := by
  intro l
  induction l with
  | nil => intro h; rfl
  | cons p t ih =>
    intro h
    have hp : p.2 = c := h p (by simp)
    simp only [List.foldl_cons, hp, lt_irrefl, if_false]
    exact ih (fun x hx => h x (by simp [hx]))

theorem foldl_maxsnd_const (c : ℚ) :
    ∀ l : List (ℚ × ℚ), (∀ p ∈ l, p.2 = c) →
      l.foldl (fun m p => if p.2 > m then p.2 else m) c = c := by
  intro l
  induction l with
  | nil => intro h; rfl
  | cons p t ih =>
    intro h
    have hp : p.2 = c := h p (by simp)
    simp only [List.foldl_cons, hp, gt_iff_lt, lt_irrefl, if_false]
    exact ih (fun x hx => h x (by simp [hx]))

/-! ## Claim theorems about the plot geometry -/

/-- C7 counterexample: with the plot rectangle at (60, 30) sized 100 by
100 and the points (0, 5) and (10, 5) sharing the single y value 5, the
transformed y coordinate is 79 while the vertical center of the plot
area is 30 + 100 / 2 = 80, so the symmetric half of the claim fails: the
integer rectangle's bottom edge is top + height - 1, one unit short. -/
theorem degenerate_y_not_centered_cex :
    (transformPoint ⟨60, 30, 100, 100⟩
        (calculateDataBoundingRect [((0 : ℚ), 5), (10, 5)]) ((0 : ℚ), 5)).2 = 79
    ∧ ((30 : ℚ) + 100 / 2 = 80)
    ∧ ((79 : ℚ) ≠ 80) := by
  refine ⟨?_, by norm_num, by norm_num⟩
  norm_num [transformPoint, calculateDataBoundingRect]

/-- C7 (amended): for a nonempty point set sharing a single x value, the
bounding box is expanded by one half on each side of the x axis (width
one), the pixel-scale division is by one rather than zero, and every
such point lands exactly on the horizontal center of the plot area;
symmetrically for a single shared y value the box is expanded the same
way, but the transformed y coordinate is one unit above the vertical
center of the plot area, because the bottom edge of the integer plot
rectangle is top + height - 1. -/
theorem degenerate_axis_centering :
    (∀ (p0 : ℚ × ℚ) (rest : List (ℚ × ℚ)) (c : ℚ),
      (∀ p ∈ p0 :: rest, p.1 = c) →
      ((calculateDataBoundingRect (p0 :: rest)).x = c - 1/2
       ∧ (calculateDataBoundingRect (p0 :: rest)).w = 1
       ∧ ∀ (pr : PlotRect) (p : ℚ × ℚ), p ∈ p0 :: rest →
           (transformPoint pr (calculateDataBoundingRect (p0 :: rest)) p).1
             = (pr.x : ℚ) + (pr.w : ℚ) / 2))
    ∧ (∀ (p0 : ℚ × ℚ) (rest : List (ℚ × ℚ)) (c : ℚ),
      (∀ p ∈ p0 :: rest, p.2 = c) →
      ((calculateDataBoundingRect (p0 :: rest)).y = c - 1/2
       ∧ (calculateDataBoundingRect (p0 :: rest)).h = 1
       ∧ ∀ (pr : PlotRect) (p : ℚ × ℚ), p ∈ p0 :: rest →
           (transformPoint pr (calculateDataBoundingRect (p0 :: rest)) p).2
             = ((pr.y : ℚ) + (pr.h : ℚ) / 2) - 1)) := by
  constructor
  · intro p0 rest c hall
    have hp0 : p0.1 = c := hall p0 (by simp)
    have hmin : (p0 :: rest).foldl (fun m p => if p.1 < m then p.1 else m) p0.1 = c := by
      rw [hp0]; exact foldl_minfst_const c (p0 :: rest) hall
    have hmax : (p0 :: rest).foldl (fun m p => if p.1 > m then p.1 else m) p0.1 = c := by
      rw [hp0]; exact foldl_maxfst_const c (p0 :: rest) hall
    have hone : (c + 1/2) - (c - 1/2) = (1 : ℚ) := by ring
    have hx : (calculateDataBoundingRect (p0 :: rest)).x = c - 1/2 := by
      simp [calculateDataBoundingRect, hmin, hmax]
    have hw : (calculateDataBoundingRect (p0 :: rest)).w = 1 := by
      simp [calculateDataBoundingRect, hmin, hmax, hone]
      norm_num
    refine ⟨hx, hw, ?_⟩
    intro pr p hp
    have hpc : p.1 = c := hall p hp
    simp only [transformPoint]
    rw [hx, hw, hpc]
    ring
  · intro p0 rest c hall
    have hp0 : p0.2 = c := hall p0 (by simp)
    have hmin : (p0 :: rest).foldl (fun m p => if p.2 < m then p.2 else m) p0.2 = c := by
      rw [hp0]; exact foldl_minsnd_const c (p0 :: rest) hall
    have hmax : (p0 :: rest).foldl (fun m p => if p.2 > m then p.2 else m) p0.2 = c := by
      rw [hp0]; exact foldl_maxsnd_const c (p0 :: rest) hall
    have hone : (c + 1/2) - (c - 1/2) = (1 : ℚ) := by ring
    have hy : (calculateDataBoundingRect (p0 :: rest)).y = c - 1/2 := by
      simp [calculateDataBoundingRect, hmin, hmax]
    have hh : (calculateDataBoundingRect (p0 :: rest)).h = 1 := by
      simp [calculateDataBoundingRect, hmin, hmax, hone]
      norm_num
    refine ⟨hy, hh, ?_⟩
    intro pr p hp
    have hpc : p.2 = c := hall p hp
    simp only [transformPoint]
    rw [hy, hh, hpc]
    push_cast
    ring

/-- Witness for C7: two points sharing x = 3 both land on the horizontal
center 60 + 100 / 2 = 110 of the concrete plot rectangle. -/
theorem degenerate_axis_centering_witness :
    (∀ p ∈ ([((3 : ℚ), 0), (3, 10)] : List (ℚ × ℚ)), p.1 = 3)
    ∧ (transformPoint ⟨60, 30, 100, 100⟩
        (calculateDataBoundingRect [((3 : ℚ), 0), (3, 10)]) ((3 : ℚ), 0)).1 = 110 :=
  ⟨by decide, by
    have h := (degenerate_axis_centering.1 ((3 : ℚ), 0) [((3 : ℚ), 10)] 3
        (by decide)).2.2 ⟨60, 30, 100, 100⟩ ((3 : ℚ), 0) (by simp)
    rw [h]
    norm_num⟩

/-- Witness for C5 at a concrete cancelled run: the flag set from the
first poll yields the pre-loop cancellation message as the one terminal
signal. -/
theorem loader_cancelled_blocks_success_witness :
    (flagAt (some 0)
        (loadLoop (some 0) 10 ["a"] 0 1 ((("h" : String).utf8ByteSize : ℤ) + 1)).nextRead = true)
    ∧ (runLoader "f" "" true true 10 ["h", "a"] (some 0)).filter isTerminalSignal
        = [Signal.errorOccurred "Loading cancelled by user."]
    ∧ Signal.loadingFinished ⟨["q"], []⟩ ∉ runLoader "f" "" true true 10 ["h", "a"] (some 0) :=
  ⟨by decide,
   (loader_cancelled_blocks_success "f" "" 10 "h" ["a"] (some 0) (by decide)).1.trans
     (by decide),
   (loader_cancelled_blocks_success "f" "" 10 "h" ["a"] (some 0) (by decide)).2 ⟨["q"], []⟩⟩

end CsvVisor
